import Mathlib

/-!
Verification of the declcfg-inline-bundles tool against its source.

Shallow embedding of:
- `src/vendor/.../pkg/model/model.go` (namespace `OPModel`): the channel
  replace/skip graph and `Channel.Head`.
- `src/main.go` (top level): the per-bundle prune/inline pipeline of `newCmd`,
  the non-channel-head classification (`getAllNonChannelHeads`), the retry
  wrapper around image pulls, and the write-back format dispatch.

External collaborators that are not part of this repository's sources
(declcfg load/convert/write, the containerd registry client, the k8s retry
helper, the `property` payload encoding) are modelled from the spec where a
claim needs them; each such definition carries a doc comment saying so.
Filesystem side effects (os.MkdirTemp / os.RemoveAll) are modelled as explicit
event lists returned alongside the functional result.
-/

namespace OPModel

/-- A bundle of the operator-registry model (model.go `Bundle`), restricted to
the fields `Channel.Head` and the head classification read: name, image,
replaces, skips. -/
structure Bundle where
  name : String
  image : String
  replaces : String
  skips : List String
deriving DecidableEq

/-- A channel of the operator-registry model (model.go `Channel`). Go stores
`Bundles` as a map keyed by bundle name; only membership and the value set are
observed by `Head`, so it is embedded as a list. -/
structure Channel where
  name : String
  bundles : List Bundle
deriving DecidableEq

/-- A package of the operator-registry model (model.go `Package`), restricted
to the fields read by `getAllNonChannelHeads`. -/
structure Package where
  name : String
  channels : List Channel
deriving DecidableEq

/-- The operator-registry `Model` (`map[string]*Package` in Go); only its value
set is iterated by the code under verification, so it is embedded as a list. -/
abbrev Model := List Package

/-- The names receiving an incoming edge in the channel graph: model.go
lines 131-139 build `incoming` by incrementing the count of each bundle's
nonempty `Replaces` and of every entry of `Skips`.  Only key membership of
that map is consumed, so the embedding keeps the keys as a list. -/
def incomingNames (c : Channel) : List String :=
  c.bundles.flatMap (fun b =>
    (if b.replaces = "" then [] else [b.replaces]) ++ b.skips)

/-- The head candidates: model.go lines 140-145, the bundles whose own name
has no entry in the incoming-edge map. -/
def headCandidates (c : Channel) : List Bundle :=
  c.bundles.filter (fun b => !((incomingNames c).contains b.name))

/-- model.go `Channel.Head` (lines 130-157): exactly one candidate is the
head; zero candidates is a no-head error; several candidates is a
multiple-heads error naming all of them. -/
def Channel.Head (c : Channel) : Except String Bundle :=
  match headCandidates c with
  | [] => Except.error "no channel head found in graph"
  | [b] => Except.ok b
  | bs => Except.error
      ("multiple channel heads found in graph: " ++ String.intercalate ", " (bs.map Bundle.name))

/-- All channels of the model, in the order the packages are iterated
(`for _, pkg := range m { for _, ch := range pkg.Channels }`). -/
def allChannels (m : Model) : List Channel :=
  m.flatMap Package.channels

/-- All bundles of the model, across every package and channel. -/
def allModelBundles (m : Model) : List Bundle :=
  (allChannels m).flatMap Channel.bundles

/-- `sets.String.Insert` of k8s apimachinery, embedded as a duplicate-free
list: a member is not inserted twice. -/
def strInsert (s : List String) (x : String) : List String :=
  if s.contains x then s else x :: s

/-- `sets.String.Delete`, embedded as removing every occurrence. -/
def strDelete (s : List String) (x : String) : List String :=
  s.filter (fun y => !(y == x))

/-- The second loop of main.go `getAllNonChannelHeads` (lines 202-210): for
every channel, compute its head and delete the head's image from the set;
a head error aborts with that error. -/
def deleteHeads : List Channel → List String → Except String (List String)
  | [], s => Except.ok s
  | ch :: rest, s =>
    match ch.Head with
    | Except.error e => Except.error e
    | Except.ok b => deleteHeads rest (strDelete s b.image)

/-- main.go `getAllNonChannelHeads` (lines 188-212), taken after the external
`declcfg.ConvertToModel` step (spec section 6 model converter): insert every
bundle's image, then delete every channel head's image, propagating the first
head error. -/
def getAllNonChannelHeads (m : Model) : Except String (List String) :=
  deleteHeads (allChannels m) ((allModelBundles m).foldl (fun s b => strInsert s b.image) [])

end OPModel

namespace Declcfg

/-- Modelled from the spec: spec section 3 says a bundle-object property
payload is either inline manifest bytes or a relative-path reference to an
externally stored manifest file (the `property` package is an external
collaborator, not among this repository's sources).  Payloads of other
property types are kept as raw bytes. -/
inductive PropValue where
  | objRef (path : String)
  | objData (bytes : String)
  | raw (bytes : String)
deriving DecidableEq

/-- A declarative-config property: a type tag and a payload. -/
structure Property where
  type : String
  value : PropValue
deriving DecidableEq

/-- Modelled from the spec: the fixed "bundle object" type tag
(`property.TypeBundleObject`) that both the prune loop and the inline loop of
main.go compare against. -/
def TypeBundleObject : String := "olm.bundle.object"

/-- A declarative-config bundle (`declcfg.Bundle`, an external collaborator
type), restricted to the fields main.go reads or the claims mention: the
image reference, the ordered property list, and the legacy object fields of
spec section 3 ("an ordered sequence of extracted manifest object bytes plus
a legacy single-object blob field"). -/
structure Bundle where
  name : String
  image : String
  properties : List Property
  objects : List String
  csvJSON : String
deriving DecidableEq

end Declcfg

/-- Checks whether `needle` occurs at the start of `hay` (character lists). -/
def matchAt : List Char → List Char → Bool
  | [], _ => true
  | _ :: _, [] => false
  | a :: as, b :: bs => a == b && matchAt as bs

/-- Checks whether `needle` occurs somewhere inside `hay` (character lists). -/
def containsSub (hay needle : List Char) : Bool :=
  match hay with
  | [] => needle.isEmpty
  | _ :: rest => matchAt needle hay || containsSub rest needle

/-- main.go line 24: `nonRetryableRegex = regexp.MustCompile('(error resolving
name)')` — a regex with no metacharacters beyond a group, so `MatchString` is
substring containment of "error resolving name". -/
def nonRetryableMatches (msg : String) : Bool :=
  containsSub msg.data ("error resolving name".data)

/-- main.go lines 105-111: the retry predicate passed to `retry.OnError` —
an error matching the non-retryable pattern is not retried, every other
error is. -/
def pullRetriable (e : String) : Bool :=
  if nonRetryableMatches e then false else true

/-- Modelled from the spec: the retry policy (k8s `retry.OnError` with
`retry.DefaultRetry`, an external collaborator — spec section 6: "bounded
number of attempts with increasing backoff; accepts a predicate deciding
whether a given error is retryable").  `attempt k` is the outcome of the
`(k+1)`-th pull (`none` = success).  Returns the surfaced error (if any) and
the total number of attempts made; on a non-retryable error or an exhausted
budget the last error is surfaced. -/
def retryOnError (retriable : String → Bool) (attempt : Nat → Option String) :
    Nat → Nat → Option String × Nat
  | i, 0 => (none, i)
  | i, s + 1 =>
    match attempt i with
    | none => (none, i + 1)
    | some e =>
      if retriable e then
        (match s with
         | 0 => (some e, i + 1)
         | s' + 1 => retryOnError retriable attempt (i + 1) (s' + 1))
      else (some e, i + 1)

/-- Go `filepath.Ext`: the suffix of the final slash-separated path element
beginning at its final dot, empty when that element has no dot.  Helper on a
reversed character list, accumulating the characters seen after the dot. -/
def extGoAux : List Char → List Char → List Char
  | [], _ => []
  | c :: rest, seen =>
    if c == '.' then c :: seen
    else if c == '/' then []
    else extGoAux rest (c :: seen)

/-- Go `filepath.Ext` on a path string. -/
def extGo (p : String) : String :=
  String.mk (extGoAux p.data.reverse [])

/-- Helper for `dirOf` on the reversed character list: drop everything up to
and including the first '/'; `none` when the path has no slash. -/
def dirOfAux : List Char → Option (List Char)
  | [] => none
  | c :: rest => if c == '/' then some rest else dirOfAux rest

/-- Go `filepath.Dir` restricted to the slash-normalised relative paths the
walker produces: everything before the final slash, or "." when there is no
slash (the additional `Clean` normalisation of Go is not exercised by any
claim). -/
def dirOf (p : String) : String :=
  match dirOfAux p.data.reverse with
  | none => "."
  | some r => String.mk r.reverse

/-- Go `filepath.Join` of two elements, restricted to already-clean paths
(the `Clean` normalisation is not exercised by any claim). -/
def joinPath (a b : String) : String :=
  if a = "" then b else if b = "" then a else a ++ "/" ++ b

namespace Declcfg

/-- The shared property filter of main.go: both the prune loop (lines 88-93)
and the inline loop (lines 127-141) rebuild the property list keeping exactly
the properties whose type is not `property.TypeBundleObject`, in order. -/
def dropObjectProps : List Property → List Property
  | [] => []
  | p :: rest =>
    if p.type = TypeBundleObject then dropObjectProps rest
    else p :: dropObjectProps rest

/-- `property.BundleObject.IsRef` / `GetRef`, modelled from the spec payload
shape: the reference path when the payload is a file reference. -/
def refOfValue : PropValue → Option String
  | PropValue.objRef r => some r
  | PropValue.objData _ => none
  | PropValue.raw _ => none

/-- The `os.RemoveAll` calls of the inline loop (main.go lines 131-140): for
every dropped bundle-object property whose payload is a file reference, the
path `filepath.Join(rootDir, filepath.Dir(path), ref)` is deleted. -/
def refDeletions (rootDir dirPath : String) : List Property → List String
  | [] => []
  | p :: rest =>
    if p.type = TypeBundleObject then
      match refOfValue p.value with
      | some r => joinPath rootDir (joinPath dirPath r) :: refDeletions rootDir dirPath rest
      | none => refDeletions rootDir dirPath rest
    else refDeletions rootDir dirPath rest

/-- The filesystem side effects of processing one bundle: scratch directories
created by `os.MkdirTemp` (main.go line 116), scratch directories removed
(there is no such call in main.go), and catalog-relative files deleted by the
`os.RemoveAll` of line 138. -/
structure FsEffects where
  createdDirs : List String
  removedDirs : List String
  deletedFiles : List String
deriving DecidableEq

/-- No filesystem effect. -/
def noEffects : FsEffects := FsEffects.mk [] [] []

/-- One new inline bundle-object property
(`property.MustBuildBundleObjectData(objJson)`, main.go line 148), modelled
from the spec: carries the manifest bytes as inline payload. -/
def mkObjectDataProp (o : String) : Property :=
  Property.mk TypeBundleObject (PropValue.objData o)

/-- main.go lines 84-153, the body of the per-bundle loop, as a function of
the ambient flags and of the outcomes of the external collaborators:
`pullErrs k` is the outcome of the `(k+1)`-th registry pull, `tmpDir` the
scratch directory `os.MkdirTemp` yields (its error path is not modelled),
`unpack` the outcome of `imageRegistry.Unpack`, and `imageInput` the outcome
of `registry.NewImageInput` carrying the extracted manifest objects in
extraction order.  JSON unmarshalling of an object payload (line 133) cannot
fail on the structured payload model.  Returns the updated bundle (or the
error the Go closure returns) together with the filesystem effects. -/
def processBundle (pruneNonHeadObjects : Bool) (nonChannelHeads bundleImages : List String)
    (rootDir path : String) (retrySteps : Nat) (pullErrs : Nat → Option String)
    (tmpDir : String) (unpack : Except String Unit) (imageInput : Except String (List String))
    (b : Bundle) : Except String Bundle × FsEffects :=
  let b1 := if pruneNonHeadObjects && nonChannelHeads.contains b.image
    then { b with properties := dropObjectProps b.properties } else b
  if pruneNonHeadObjects && nonChannelHeads.contains b.image then
    (Except.ok b1, noEffects)
  else if bundleImages.isEmpty || bundleImages.contains b.image then
    match (retryOnError pullRetriable pullErrs 0 retrySteps).1 with
    | some e => (Except.error ("pull image " ++ b.image ++ ": " ++ e), noEffects)
    | none =>
      match unpack with
      | Except.error e => (Except.error e, FsEffects.mk [tmpDir] [] [])
      | Except.ok _ =>
        match imageInput with
        | Except.error e => (Except.error e, FsEffects.mk [tmpDir] [] [])
        | Except.ok objs =>
          (Except.ok { b1 with
              properties := dropObjectProps b1.properties ++ objs.map mkObjectDataProp },
           FsEffects.mk [tmpDir] [] (refDeletions rootDir (dirOf path) b1.properties))
  else (Except.ok b1, noEffects)

end Declcfg

/-- The two serialization formats of the write-back step. -/
inductive SerFormat where
  | yaml
  | json
deriving DecidableEq

/-- main.go lines 159-167: the write-back format is YAML exactly when
`filepath.Ext(path) == ".yaml"`, JSON otherwise. -/
def writeBackFormat (path : String) : SerFormat :=
  if extGo path = ".yaml" then SerFormat.yaml else SerFormat.json

/-- main.go line 155: the file is rewritten at its original location
`filepath.Join(rootDir, path)`. -/
def writeBackTarget (rootDir path : String) : String :=
  joinPath rootDir path

/-- The external-collaborator outcomes available to one bundle's image
materialization, keyed by image in `processFiles`. -/
structure MatInputs where
  pullErrs : Nat → Option String
  tmpDir : String
  unpack : Except String Unit
  imageInput : Except String (List String)

/-- The bundle loop of one file's task (main.go lines 84-154): bundles are
processed sequentially and the first error ends the task. -/
def processBundles (pf : Bool) (nh req : List String) (root path : String) (steps : Nat)
    (env : String → MatInputs) : List Declcfg.Bundle → Except String (List Declcfg.Bundle)
  | [] => Except.ok []
  | b :: rest =>
    match (Declcfg.processBundle pf nh req root path steps (env b.image).pullErrs
        (env b.image).tmpDir (env b.image).unpack (env b.image).imageInput b).1 with
    | Except.error e => Except.error e
    | Except.ok b2 =>
      match processBundles pf nh req root path steps env rest with
      | Except.error e => Except.error e
      | Except.ok rest2 => Except.ok (b2 :: rest2)

/-- The per-file tasks (main.go lines 78-171): each file's bundles are
rewritten and the file is serialized back in the extension-selected format.
The tasks run concurrently in Go; since they share no mutable state, the
embedding lists their results in walk order. -/
def processFiles (pf : Bool) (nh req : List String) (root : String) (steps : Nat)
    (env : String → MatInputs) :
    List (String × List Declcfg.Bundle) →
    Except String (List (String × SerFormat × List Declcfg.Bundle))
  | [] => Except.ok []
  | (path, bs) :: rest =>
    match processBundles pf nh req root path steps env bs with
    | Except.error e => Except.error e
    | Except.ok bs2 =>
      match processFiles pf nh req root steps env rest with
      | Except.error e => Except.error e
      | Except.ok rest2 => Except.ok ((path, writeBackFormat path, bs2) :: rest2)

/-- The run of main.go lines 70-175 after loading: when pruning is requested
the non-channel-head classification is computed once, before any file is
processed, and a classification error is fatal for the whole run; otherwise
the files are processed with the resulting immutable classification. -/
def runPipeline (pf : Bool) (m : OPModel.Model) (req : List String) (root : String)
    (steps : Nat) (env : String → MatInputs)
    (files : List (String × List Declcfg.Bundle)) :
    Except String (List (String × SerFormat × List Declcfg.Bundle)) :=
  match (if pf then OPModel.getAllNonChannelHeads m else Except.ok []) with
  | Except.error e => Except.error e
  | Except.ok nh => processFiles pf nh req root steps env files

/-- The subsequence of a property list whose entries are not bundle-object
properties — the sequence both mutations must preserve. -/
def Declcfg.nonObjectProps (ps : List Declcfg.Property) : List Declcfg.Property :=
  ps.filter (fun p => p.type != Declcfg.TypeBundleObject)

/-- Concrete channels exercising the three contractual cases of C1: a linear
channel with unique head v2, a two-cycle with no head, and a forked channel
with two heads a and b. -/
def exChA : OPModel.Channel :=
  OPModel.Channel.mk "alpha" [OPModel.Bundle.mk "v1" "i1" "" [], OPModel.Bundle.mk "v2" "i2" "v1" []]

def exChB : OPModel.Channel :=
  OPModel.Channel.mk "beta" [OPModel.Bundle.mk "a" "ia" "b" [], OPModel.Bundle.mk "b" "ib" "a" []]

def exChC : OPModel.Channel :=
  OPModel.Channel.mk "gamma" [OPModel.Bundle.mk "a" "ia" "" [], OPModel.Bundle.mk "b" "ib" "" []]

/-- A model whose image "imgx" has an incoming replaces edge in channel ch1
yet is the head of channel ch2 — the classification must leave it out. -/
def exM10 : OPModel.Model :=
  [OPModel.Package.mk "p"
    [OPModel.Channel.mk "ch1"
      [OPModel.Bundle.mk "x" "imgx" "" [], OPModel.Bundle.mk "y" "imgy" "x" []],
     OPModel.Channel.mk "ch2" [OPModel.Bundle.mk "x2" "imgx" "" []]]]

/-- A model whose only channel is a two-cycle, so head classification fails. -/
def exMCyc : OPModel.Model :=
  [OPModel.Package.mk "p"
    [OPModel.Channel.mk "ch"
      [OPModel.Bundle.mk "a" "ia" "b" [], OPModel.Bundle.mk "b" "ib" "a" []]]]

/-- The two non-object properties of the running example. -/
def exPkgProp : Declcfg.Property := Declcfg.Property.mk "olm.package" (Declcfg.PropValue.raw "pkg")

def exGvkProp : Declcfg.Property := Declcfg.Property.mk "olm.gvk" (Declcfg.PropValue.raw "gvk")

/-- A property list interleaving non-object properties with a
reference-payload and an inline-payload bundle-object property. -/
def exProps : List Declcfg.Property :=
  [exPkgProp,
   Declcfg.Property.mk Declcfg.TypeBundleObject (Declcfg.PropValue.objRef "ref.yaml"),
   exGvkProp,
   Declcfg.Property.mk Declcfg.TypeBundleObject (Declcfg.PropValue.objData "inline")]

/-- The running example bundle: image "i", mixed properties, a nonempty
legacy single-blob field. -/
def exBundle : Declcfg.Bundle := Declcfg.Bundle.mk "b" "i" exProps [] "legacy-csv"

/-- `exBundle` after pruning its bundle-object properties. -/
def exPrunedBundle : Declcfg.Bundle :=
  Declcfg.Bundle.mk "b" "i" [exPkgProp, exGvkProp] [] "legacy-csv"

/-- `exBundle` after inlining the two extracted manifest objects m1, m2. -/
def exInlinedBundle : Declcfg.Bundle :=
  Declcfg.Bundle.mk "b" "i"
    [exPkgProp, exGvkProp, Declcfg.mkObjectDataProp "m1", Declcfg.mkObjectDataProp "m2"]
    [] "legacy-csv"

/-- A bundle with no properties, used by the scratch-directory theorem. -/
def exB7 : Declcfg.Bundle := Declcfg.Bundle.mk "b7" "i7" [] [] ""

theorem strContains_iff (l : List String) (x : String) : l.contains x = true ↔ x ∈ l := by
  simp

theorem mem_strInsert (s : List String) (x y : String) :
    y ∈ OPModel.strInsert s x ↔ y = x ∨ y ∈ s := by
  unfold OPModel.strInsert
  split
  · rename_i h
    rw [strContains_iff] at h
    constructor
    · exact Or.inr
    · rintro (rfl | hy)
      · exact h
      · exact hy
  · simp

theorem mem_strDelete (s : List String) (x y : String) :
    y ∈ OPModel.strDelete s x ↔ y ∈ s ∧ y ≠ x := by
  unfold OPModel.strDelete
  simp

theorem mem_foldl_strInsert (l : List OPModel.Bundle) (init : List String) (x : String) :
    x ∈ l.foldl (fun s b => OPModel.strInsert s b.image) init ↔
      x ∈ init ∨ ∃ b ∈ l, b.image = x := by
  induction l generalizing init with
  | nil => simp
  | cons a as ih =>
    simp only [List.foldl_cons, ih, mem_strInsert, List.mem_cons]
    constructor
    · rintro ((rfl | h) | ⟨b, hb, rfl⟩)
      · exact Or.inr ⟨a, Or.inl rfl, rfl⟩
      · exact Or.inl h
      · exact Or.inr ⟨b, Or.inr hb, rfl⟩
    · rintro (h | ⟨b, hb | hb, rfl⟩)
      · exact Or.inl (Or.inr h)
      · exact Or.inl (Or.inl (by rw [hb]))
      · exact Or.inr ⟨b, hb, rfl⟩

theorem mem_incomingNames (c : OPModel.Channel) (x : String) :
    x ∈ OPModel.incomingNames c ↔
      ∃ b2 ∈ c.bundles, (b2.replaces ≠ "" ∧ b2.replaces = x) ∨ x ∈ b2.skips := by
  unfold OPModel.incomingNames
  simp only [List.mem_flatMap, List.mem_append]
  constructor
  · rintro ⟨b2, hb2, h | h⟩
    · refine ⟨b2, hb2, Or.inl ?_⟩
      split at h
      · simp at h
      · rename_i hne
        simp at h
        exact ⟨hne, h.symm⟩
    · exact ⟨b2, hb2, Or.inr h⟩
  · rintro ⟨b2, hb2, ⟨hne, rfl⟩ | h⟩
    · refine ⟨b2, hb2, Or.inl ?_⟩
      simp [hne]
    · exact ⟨b2, hb2, Or.inr h⟩

/-- C1: for every channel, `Head` returns the unique bundle whose name has no
entry in the incoming-edge map built from every bundle's replaces target and
skips entries; with zero such bundles it fails with the no-head error, and
with several it fails with the multiple-heads error naming all candidates. -/
theorem Head_unique_no_incoming (c : OPModel.Channel) :
    (∀ b ∈ c.bundles, (b ∈ OPModel.headCandidates c ↔
        ¬ ∃ b2 ∈ c.bundles, (b2.replaces ≠ "" ∧ b2.replaces = b.name) ∨ b.name ∈ b2.skips))
    ∧ (OPModel.headCandidates c = [] →
        c.Head = Except.error "no channel head found in graph")
    ∧ (∀ b, OPModel.headCandidates c = [b] → c.Head = Except.ok b)
    ∧ (2 ≤ (OPModel.headCandidates c).length →
        c.Head = Except.error ("multiple channel heads found in graph: " ++
          String.intercalate ", " ((OPModel.headCandidates c).map OPModel.Bundle.name))) := by
  refine ⟨?_, ?_, ?_, ?_⟩
  · intro b hb
    unfold OPModel.headCandidates
    rw [List.mem_filter]
    rw [← mem_incomingNames c b.name]
    constructor
    · rintro ⟨-, h⟩ hmem
      rw [← strContains_iff] at hmem
      rw [hmem] at h
      simp at h
    · intro h
      refine ⟨hb, ?_⟩
      cases hcb : (OPModel.incomingNames c).contains b.name with
      | false => simp
      | true =>
        rw [strContains_iff] at hcb
        exact absurd hcb h
  · intro h
    unfold OPModel.Channel.Head
    rw [h]
  · intro b h
    unfold OPModel.Channel.Head
    rw [h]
  · intro hlen
    rcases hcand : OPModel.headCandidates c with _ | ⟨a, _ | ⟨b2, rest⟩⟩
    · rw [hcand] at hlen; simp at hlen
    · rw [hcand] at hlen; simp at hlen
    · unfold OPModel.Channel.Head
      rw [hcand]

/-- Witness for C1: the three cases at concrete channels. -/
theorem Head_unique_no_incoming_witness :
    exChA.Head = Except.ok (OPModel.Bundle.mk "v2" "i2" "v1" [])
    ∧ exChB.Head = Except.error "no channel head found in graph"
    ∧ exChC.Head = Except.error "multiple channel heads found in graph: a, b" := by
  refine ⟨?_, ?_, ?_⟩
  · exact (Head_unique_no_incoming exChA).2.2.1 (OPModel.Bundle.mk "v2" "i2" "v1" []) (by decide)
  · exact (Head_unique_no_incoming exChB).2.1 (by decide)
  · have h := (Head_unique_no_incoming exChC).2.2.2 (by decide)
    simpa using h

theorem deleteHeads_ok_iff (chs : List OPModel.Channel) (s t : List String)
    (h : OPModel.deleteHeads chs s = Except.ok t) (x : String) :
    x ∈ t ↔ x ∈ s ∧ ∀ ch ∈ chs, ∀ b, ch.Head = Except.ok b → b.image ≠ x := by
  induction chs generalizing s with
  | nil =>
    simp [OPModel.deleteHeads] at h
    subst h
    simp
  | cons ch rest ih =>
    unfold OPModel.deleteHeads at h
    cases hch : ch.Head with
    | error e =>
      rw [hch] at h
      exact absurd h (by simp)
    | ok b =>
      rw [hch] at h
      rw [ih _ h, mem_strDelete]
      constructor
      · rintro ⟨⟨hs, hne⟩, hrest⟩
        refine ⟨hs, ?_⟩
        intro ch2 hch2 b2 hb2
        rcases List.mem_cons.mp hch2 with rfl | hch2
        · rw [hch] at hb2
          injection hb2 with hb2
          subst hb2
          exact fun hx => hne hx.symm
        · exact hrest ch2 hch2 b2 hb2
      · rintro ⟨hs, hall⟩
        refine ⟨⟨hs, ?_⟩, ?_⟩
        · have hb := hall ch (List.mem_cons_self ch rest) b hch
          exact fun hx => hb hx.symm
        · intro ch2 hch2 b2 hb2
          exact hall ch2 (List.mem_cons.mpr (Or.inr hch2)) b2 hb2

/-- C10: the non-channel-head classification is keyed by image and is exactly
the set of images of all bundles of the model minus the image of every
channel's head: an image that is the head of at least one channel is never
classified as a non-head, even when the same image carries incoming
replace/skip edges in some other channel. -/
theorem nonChannelHeads_image_spec (m : OPModel.Model) (s : List String)
    (h : OPModel.getAllNonChannelHeads m = Except.ok s) (img : String) :
    img ∈ s ↔ ((∃ b ∈ OPModel.allModelBundles m, b.image = img) ∧
      ∀ ch ∈ OPModel.allChannels m, ∀ b, ch.Head = Except.ok b → b.image ≠ img) := by
  unfold OPModel.getAllNonChannelHeads at h
  rw [deleteHeads_ok_iff _ _ _ h, mem_foldl_strInsert]
  simp

/-- Witness for C10: on `exM10` the classification succeeds with the empty
set, and the instantiated characterization holds for the shared image. -/
theorem nonChannelHeads_image_spec_witness :
    ("imgx" ∈ ([] : List String)) ↔
      ((∃ b ∈ OPModel.allModelBundles exM10, b.image = "imgx") ∧
        ∀ ch ∈ OPModel.allChannels exM10, ∀ b, ch.Head = Except.ok b → b.image ≠ "imgx") :=
  nonChannelHeads_image_spec exM10 [] rfl "imgx"

/-- C9: when pruning is requested, the head/non-head classification is
computed once from the whole catalog model before any file is processed (the
pipeline embedding consults `getAllNonChannelHeads` a single time, ahead of
`processFiles`), and a graph error there is fatal for the whole run: the
pipeline returns that error and no file or bundle is processed or rewritten. -/
theorem classification_error_fatal (pf : Bool) (m : OPModel.Model) (req : List String)
    (root : String) (steps : Nat) (env : String → MatInputs)
    (files : List (String × List Declcfg.Bundle)) (e : String)
    (hpf : pf = true) (he : OPModel.getAllNonChannelHeads m = Except.error e) :
    runPipeline pf m req root steps env files = Except.error e := by
  subst hpf
  unfold runPipeline
  simp [he]

/-- Witness for C9: the cyclic model aborts the whole run with the no-head
error before touching the (empty) file list. -/
theorem classification_error_fatal_witness :
    runPipeline true exMCyc [] "r" 1
      (fun _ => MatInputs.mk (fun _ => none) "t" (Except.ok ()) (Except.ok [])) []
      = Except.error "no channel head found in graph" :=
  classification_error_fatal true exMCyc [] "r" 1
    (fun _ => MatInputs.mk (fun _ => none) "t" (Except.ok ()) (Except.ok [])) []
    "no channel head found in graph" rfl rfl

theorem retryOnError_succ (r : String → Bool) (a : Nat → Option String) (i s : Nat) :
    retryOnError r a i (s + 1) =
      (match a i with
       | none => (none, i + 1)
       | some e =>
         if r e then
           (match s with
            | 0 => (some e, i + 1)
            | s' + 1 => retryOnError r a (i + 1) (s' + 1))
         else (some e, i + 1)) := by rw [retryOnError]

theorem retryOnError_exhausts (retriable : String → Bool) (attempt : Nat → Option String)
    (s : Nat) (hs : 1 ≤ s) :
    ∀ i, (∀ k, k < s → ∃ ek, attempt (i + k) = some ek ∧ retriable ek = true) →
      retryOnError retriable attempt i s = (attempt (i + s - 1), i + s) := by
  induction s with
  | zero => exact absurd hs (by omega)
  | succ s' ih =>
    intro i h
    obtain ⟨e0, he0, hr0⟩ := h 0 (by omega)
    rw [Nat.add_zero] at he0
    cases s' with
    | zero =>
      rw [retryOnError_succ, he0]
      simp [hr0, he0]
    | succ s'' =>
      have hrec := ih (by omega) (i + 1) (fun k hk => by
        obtain ⟨ek, hek, hrk⟩ := h (k + 1) (by omega)
        exact ⟨ek, by rw [← hek]; congr 1; omega, hrk⟩)
      rw [retryOnError_succ, he0]
      simp only [hr0, if_true]
      rw [hrec]
      have h1 : i + 1 + (s'' + 1) - 1 = i + (s'' + 1 + 1) - 1 := by omega
      have h2 : i + 1 + (s'' + 1) = i + (s'' + 1 + 1) := by omega
      rw [h1, h2]

/-- C6: a pull whose error message matches the fixed permanent-failure
pattern is surfaced after exactly one attempt, with no retry; a pull whose
errors never match the pattern is retried up to the retry policy's attempt
budget, after which the last error is surfaced.  (The retry machinery itself,
`retry.OnError` with `retry.DefaultRetry`, is an external collaborator
modelled from the spec as `retryOnError`; the predicate and the pattern are
main.go lines 24 and 104-111.) -/
theorem pull_retry_spec (steps : Nat) (hs : 1 ≤ steps) (attempt : Nat → Option String) :
    (∀ e, attempt 0 = some e → nonRetryableMatches e = true →
      retryOnError pullRetriable attempt 0 steps = (some e, 1))
    ∧ ((∀ k, k < steps → ∃ ek, attempt k = some ek ∧ nonRetryableMatches ek = false) →
      retryOnError pullRetriable attempt 0 steps = (attempt (steps - 1), steps)) := by
  constructor
  · intro e h0 hm
    cases steps with
    | zero => exact absurd hs (by omega)
    | succ t =>
      rw [retryOnError_succ, h0]
      have hret : pullRetriable e = false := by
        unfold pullRetriable
        rw [hm]
        rfl
      simp [hret]
  · intro hall
    have h := retryOnError_exhausts pullRetriable attempt steps hs 0 (fun k hk => by
      obtain ⟨ek, hek, hmk⟩ := hall k hk
      refine ⟨ek, by simpa using hek, ?_⟩
      unfold pullRetriable
      rw [hmk]
      rfl)
    simpa using h

/-- Witness for C6: a permanently failing pull is surfaced after one attempt;
a transiently failing pull is retried to the budget of five attempts. -/
theorem pull_retry_spec_witness :
    retryOnError pullRetriable (fun _ => some "x: error resolving name") 0 5
      = (some "x: error resolving name", 1)
    ∧ retryOnError pullRetriable (fun _ => some "connection refused") 0 5
      = (some "connection refused", 5) := by
  constructor
  · exact (pull_retry_spec 5 (by omega) (fun _ => some "x: error resolving name")).1
      "x: error resolving name" rfl (by decide)
  · have h := (pull_retry_spec 5 (by omega) (fun _ => some "connection refused")).2
      (fun k hk => ⟨"connection refused", rfl, by decide⟩)
    simpa using h

theorem dropObjectProps_eq_filter (ps : List Declcfg.Property) :
    Declcfg.dropObjectProps ps = Declcfg.nonObjectProps ps := by
  induction ps with
  | nil => rfl
  | cons p rest ih =>
    unfold Declcfg.dropObjectProps Declcfg.nonObjectProps
    unfold Declcfg.nonObjectProps at ih
    by_cases h : p.type = Declcfg.TypeBundleObject
    · simp [h, ih]
    · simp [h, ih]

theorem nonObjectProps_idem (ps : List Declcfg.Property) :
    Declcfg.nonObjectProps (Declcfg.nonObjectProps ps) = Declcfg.nonObjectProps ps := by
  induction ps with
  | nil => rfl
  | cons p rest ih =>
    unfold Declcfg.nonObjectProps at ih ⊢
    by_cases h : p.type = Declcfg.TypeBundleObject
    · simp [h, ih]
    · simp [h, ih]

theorem nonObjectProps_append_data (ps : List Declcfg.Property) (objs : List String) :
    Declcfg.nonObjectProps (ps ++ objs.map Declcfg.mkObjectDataProp) =
      Declcfg.nonObjectProps ps := by
  unfold Declcfg.nonObjectProps
  rw [List.filter_append]
  have hnil : (objs.map Declcfg.mkObjectDataProp).filter
      (fun p => p.type != Declcfg.TypeBundleObject) = [] := by
    induction objs with
    | nil => rfl
    | cons o rest ih => simp [Declcfg.mkObjectDataProp, ih]
  rw [hnil, List.append_nil]

theorem processBundle_prune (pf : Bool) (nh req : List String) (root path : String)
    (steps : Nat) (pullErrs : Nat → Option String) (tmp : String)
    (unpack : Except String Unit) (inp : Except String (List String)) (b : Declcfg.Bundle)
    (hp : pf = true ∧ b.image ∈ nh) :
    Declcfg.processBundle pf nh req root path steps pullErrs tmp unpack inp b =
      (Except.ok { b with properties := Declcfg.dropObjectProps b.properties },
       Declcfg.noEffects) := by
  unfold Declcfg.processBundle
  simp [hp.1, hp.2]

theorem processBundle_untouched (pf : Bool) (nh req : List String) (root path : String)
    (steps : Nat) (pullErrs : Nat → Option String) (tmp : String)
    (unpack : Except String Unit) (inp : Except String (List String)) (b : Declcfg.Bundle)
    (hp : ¬(pf = true ∧ b.image ∈ nh))
    (hr : ¬(req = [] ∨ b.image ∈ req)) :
    Declcfg.processBundle pf nh req root path steps pullErrs tmp unpack inp b =
      (Except.ok b, Declcfg.noEffects) := by
  unfold Declcfg.processBundle
  simp [hp, hr]

theorem processBundle_inline_eq (pf : Bool) (nh req : List String) (root path : String)
    (steps : Nat) (pullErrs : Nat → Option String) (tmp : String)
    (unpack : Except String Unit) (inp : Except String (List String)) (b : Declcfg.Bundle)
    (hp : ¬(pf = true ∧ b.image ∈ nh))
    (hr : req = [] ∨ b.image ∈ req) :
    Declcfg.processBundle pf nh req root path steps pullErrs tmp unpack inp b =
      (match (retryOnError pullRetriable pullErrs 0 steps).1 with
       | some e => (Except.error ("pull image " ++ b.image ++ ": " ++ e), Declcfg.noEffects)
       | none =>
         match unpack with
         | Except.error e => (Except.error e, Declcfg.FsEffects.mk [tmp] [] [])
         | Except.ok _ =>
           match inp with
           | Except.error e => (Except.error e, Declcfg.FsEffects.mk [tmp] [] [])
           | Except.ok objs =>
             (Except.ok { b with properties :=
                 Declcfg.dropObjectProps b.properties ++ objs.map Declcfg.mkObjectDataProp },
              Declcfg.FsEffects.mk [tmp] []
                (Declcfg.refDeletions root (dirOf path) b.properties))) := by
  unfold Declcfg.processBundle
  simp [hp, hr]

theorem processBundle_ok_shape (pf : Bool) (nh req : List String) (root path : String)
    (steps : Nat) (pullErrs : Nat → Option String) (tmp : String)
    (unpack : Except String Unit) (inp : Except String (List String)) (b b' : Declcfg.Bundle)
    (hrun : (Declcfg.processBundle pf nh req root path steps pullErrs tmp unpack inp b).1
      = Except.ok b') :
    (pf = true ∧ b.image ∈ nh ∧
      b' = { b with properties := Declcfg.dropObjectProps b.properties })
    ∨ (¬(pf = true ∧ b.image ∈ nh) ∧ (req = [] ∨ b.image ∈ req) ∧
      ∃ objs, inp = Except.ok objs ∧
        b' = { b with properties :=
          Declcfg.dropObjectProps b.properties ++ objs.map Declcfg.mkObjectDataProp })
    ∨ (¬(pf = true ∧ b.image ∈ nh) ∧ ¬(req = [] ∨ b.image ∈ req) ∧ b' = b) := by
  by_cases hp : pf = true ∧ b.image ∈ nh
  · rw [processBundle_prune pf nh req root path steps pullErrs tmp unpack inp b hp] at hrun
    simp at hrun
    exact Or.inl ⟨hp.1, hp.2, hrun.symm⟩
  · by_cases hr : req = [] ∨ b.image ∈ req
    · rw [processBundle_inline_eq pf nh req root path steps pullErrs tmp unpack inp b hp hr]
        at hrun
      cases hpull : (retryOnError pullRetriable pullErrs 0 steps).1 with
      | some e => rw [hpull] at hrun; simp at hrun
      | none =>
        rw [hpull] at hrun
        cases unpack with
        | error e => simp at hrun
        | ok u =>
          cases inp with
          | error e => simp at hrun
          | ok objs =>
            simp at hrun
            exact Or.inr (Or.inl ⟨hp, hr, objs, rfl, hrun.symm⟩)
    · rw [processBundle_untouched pf nh req root path steps pullErrs tmp unpack inp b hp hr]
        at hrun
      simp at hrun
      exact Or.inr (Or.inr ⟨hp, hr, hrun.symm⟩)

/-- C2 counterexample: pruning a non-head bundle whose object property is a
file reference removes the property but deletes no file: the deleted-files
effect is empty and does not contain the resolved reference path, contrary
to the claim that the referenced file is deleted before the property is
dropped. -/
theorem prune_file_deletion_counterexample :
    (Declcfg.processBundle true ["i"] [] "r" "pkg/c.json" 1 (fun _ => none) "t"
        (Except.ok ()) (Except.ok []) exBundle).2.deletedFiles = []
    ∧ ((Declcfg.processBundle true ["i"] [] "r" "pkg/c.json" 1 (fun _ => none) "t"
        (Except.ok ()) (Except.ok []) exBundle).1.map
          (fun b => b.properties.any (fun p => p.type == Declcfg.TypeBundleObject)))
        = Except.ok false
    ∧ joinPath "r" (joinPath (dirOf "pkg/c.json") "ref.yaml") = "r/pkg/ref.yaml"
    ∧ "r/pkg/ref.yaml" ∉ (Declcfg.processBundle true ["i"] [] "r" "pkg/c.json" 1
        (fun _ => none) "t" (Except.ok ()) (Except.ok []) exBundle).2.deletedFiles := by
  refine ⟨rfl, rfl, rfl, ?_⟩
  intro h
  rw [processBundle_prune true ["i"] [] "r" "pkg/c.json" 1 (fun _ => none) "t"
    (Except.ok ()) (Except.ok []) exBundle ⟨rfl, by decide⟩] at h
  simp [Declcfg.noEffects] at h

/-- C2 (amended): for every bundle selected for pruning, the prune operation
removes every bundle-object property, keeping exactly the non-object
subsequence, and deletes no files: referenced external files are removed
only by the inline path. -/
theorem prune_removes_objects_deletes_no_files (pf : Bool) (nh req : List String)
    (root path : String) (steps : Nat) (pullErrs : Nat → Option String) (tmp : String)
    (unpack : Except String Unit) (inp : Except String (List String)) (b : Declcfg.Bundle)
    (hp : pf = true ∧ b.image ∈ nh) :
    ∃ b', (Declcfg.processBundle pf nh req root path steps pullErrs tmp unpack inp b).1
        = Except.ok b'
      ∧ b'.properties = Declcfg.nonObjectProps b.properties
      ∧ (∀ p ∈ b'.properties, p.type ≠ Declcfg.TypeBundleObject)
      ∧ (Declcfg.processBundle pf nh req root path steps pullErrs tmp unpack inp b).2.deletedFiles
          = [] := by
  rw [processBundle_prune pf nh req root path steps pullErrs tmp unpack inp b hp]
  refine ⟨_, rfl, ?_, ?_, rfl⟩
  · exact dropObjectProps_eq_filter b.properties
  · intro p hmem
    have hmem2 : p ∈ Declcfg.nonObjectProps b.properties := by
      rw [← dropObjectProps_eq_filter]
      exact hmem
    unfold Declcfg.nonObjectProps at hmem2
    have h2 := (List.mem_filter.mp hmem2).2
    simpa using h2

/-- Witness for the amended C2 at the running example. -/
theorem prune_removes_objects_deletes_no_files_witness :
    ∃ b', (Declcfg.processBundle true ["i"] [] "r" "pkg/c.json" 1 (fun _ => none) "t"
        (Except.ok ()) (Except.ok []) exBundle).1 = Except.ok b'
      ∧ b'.properties = Declcfg.nonObjectProps exBundle.properties
      ∧ (∀ p ∈ b'.properties, p.type ≠ Declcfg.TypeBundleObject)
      ∧ (Declcfg.processBundle true ["i"] [] "r" "pkg/c.json" 1 (fun _ => none) "t"
        (Except.ok ()) (Except.ok []) exBundle).2.deletedFiles = [] :=
  prune_removes_objects_deletes_no_files true ["i"] [] "r" "pkg/c.json" 1 (fun _ => none) "t"
    (Except.ok ()) (Except.ok []) exBundle ⟨rfl, by decide⟩

/-- C3: for every bundle and every input ordering of its property list, both
the prune decision and the inline decision keep the subsequence of
non-bundle-object properties unchanged and in their original relative order,
dropping none of them; inline appends the new bundle-object properties after
them, one per extracted manifest object, in extraction order, each carrying
an inline-data payload rather than a file reference. -/
theorem mutations_preserve_nonobject_subsequence (pf : Bool) (nh req : List String)
    (root path : String) (steps : Nat) (pullErrs : Nat → Option String) (tmp : String)
    (unpack : Except String Unit) (inp : Except String (List String)) (b b' : Declcfg.Bundle)
    (hrun : (Declcfg.processBundle pf nh req root path steps pullErrs tmp unpack inp b).1
      = Except.ok b') :
    Declcfg.nonObjectProps b'.properties = Declcfg.nonObjectProps b.properties
    ∧ (pf = true ∧ b.image ∈ nh → b'.properties = Declcfg.nonObjectProps b.properties)
    ∧ (¬(pf = true ∧ b.image ∈ nh) → (req = [] ∨ b.image ∈ req) →
        ∃ objs, inp = Except.ok objs ∧
          b'.properties = Declcfg.nonObjectProps b.properties
            ++ objs.map Declcfg.mkObjectDataProp) := by
  rcases processBundle_ok_shape pf nh req root path steps pullErrs tmp unpack inp b b' hrun
    with ⟨h1, h2, rfl⟩ | ⟨hp, hr, objs, hinp, rfl⟩ | ⟨hp, hr, rfl⟩
  · refine ⟨?_, fun _ => ?_, fun hcon _ => absurd ⟨h1, h2⟩ hcon⟩
    · simp [dropObjectProps_eq_filter, nonObjectProps_idem]
    · simp [dropObjectProps_eq_filter]
  · refine ⟨?_, fun hcon => absurd hcon hp, fun _ _ => ⟨objs, hinp, ?_⟩⟩
    · simp only [dropObjectProps_eq_filter]
      rw [show Declcfg.nonObjectProps b.properties ++ List.map Declcfg.mkObjectDataProp objs
          = Declcfg.nonObjectProps b.properties ++ objs.map Declcfg.mkObjectDataProp from rfl]
      rw [nonObjectProps_append_data, nonObjectProps_idem]
    · simp [dropObjectProps_eq_filter]
  · exact ⟨rfl, fun hcon => absurd hcon hp, fun _ hcon => absurd hcon hr⟩

/-- Witness for C3 at the running example, on the inline path with two
extracted objects. -/
theorem mutations_preserve_nonobject_subsequence_witness :
    Declcfg.nonObjectProps exInlinedBundle.properties
        = Declcfg.nonObjectProps exBundle.properties
    ∧ (false = true ∧ exBundle.image ∈ ([] : List String) →
        exInlinedBundle.properties = Declcfg.nonObjectProps exBundle.properties)
    ∧ (¬(false = true ∧ exBundle.image ∈ ([] : List String)) →
        (([] : List String) = [] ∨ exBundle.image ∈ ([] : List String)) →
        ∃ objs, (Except.ok ["m1", "m2"] : Except String (List String)) = Except.ok objs ∧
          exInlinedBundle.properties = Declcfg.nonObjectProps exBundle.properties
            ++ objs.map Declcfg.mkObjectDataProp) :=
  mutations_preserve_nonobject_subsequence false [] [] "r" "pkg/c.json" 1 (fun _ => none) "t"
    (Except.ok ()) (Except.ok ["m1", "m2"]) exBundle exInlinedBundle rfl

/-- C4 counterexample: a bundle with a nonempty legacy single-blob field that
undergoes the prune decision keeps that field verbatim — it is not cleared,
contrary to the claim. -/
theorem legacy_field_counterexample :
    ((Declcfg.processBundle true ["i"] [] "r" "pkg/c.json" 1 (fun _ => none) "t"
        (Except.ok ()) (Except.ok []) exBundle).1.map Declcfg.Bundle.csvJSON)
      = Except.ok "legacy-csv"
    ∧ ("legacy-csv" : String) ≠ "" := by
  refine ⟨rfl, by decide⟩

/-- C4 (amended): on every successful outcome of the per-bundle processing —
prune decision, inline decision, or untouched — the legacy single-blob object
field (and the legacy objects list) is left unchanged; neither decision
clears it. -/
theorem legacy_field_unchanged (pf : Bool) (nh req : List String)
    (root path : String) (steps : Nat) (pullErrs : Nat → Option String) (tmp : String)
    (unpack : Except String Unit) (inp : Except String (List String)) (b b' : Declcfg.Bundle)
    (hrun : (Declcfg.processBundle pf nh req root path steps pullErrs tmp unpack inp b).1
      = Except.ok b') :
    b'.csvJSON = b.csvJSON ∧ b'.objects = b.objects := by
  rcases processBundle_ok_shape pf nh req root path steps pullErrs tmp unpack inp b b' hrun
    with ⟨_, _, rfl⟩ | ⟨_, _, _, _, rfl⟩ | ⟨_, _, rfl⟩ <;> exact ⟨rfl, rfl⟩

/-- Witness for the amended C4: the pruned example bundle keeps its legacy
field "legacy-csv". -/
theorem legacy_field_unchanged_witness :
    exPrunedBundle.csvJSON = exBundle.csvJSON ∧ exPrunedBundle.objects = exBundle.objects :=
  legacy_field_unchanged true ["i"] [] "r" "pkg/c.json" 1 (fun _ => none) "t"
    (Except.ok ()) (Except.ok []) exBundle exPrunedBundle rfl

/-- C5: a bundle satisfying both the prune-target condition (pruning
requested, image classified non-head) and the inline-target condition (the
requested set is empty or holds its image) is pruned and not inlined: for
every materializer outcome the result is the pruned bundle with no
filesystem effect — the two decisions are mutually exclusive and prune wins. -/
theorem prune_wins_over_inline (nh req : List String) (root path tmp : String)
    (steps : Nat) (pullErrs : Nat → Option String)
    (unpack : Except String Unit) (inp : Except String (List String)) (b : Declcfg.Bundle)
    (hprune : b.image ∈ nh) (_hinline : req = [] ∨ b.image ∈ req) :
    Declcfg.processBundle true nh req root path steps pullErrs tmp unpack inp b
      = (Except.ok { b with properties := Declcfg.dropObjectProps b.properties },
         Declcfg.noEffects) :=
  processBundle_prune true nh req root path steps pullErrs tmp unpack inp b ⟨rfl, hprune⟩

/-- Witness for C5: the example bundle's image is both a classified non-head
and in the requested set; the run prunes it and performs no materialization
effect. -/
theorem prune_wins_over_inline_witness :
    Declcfg.processBundle true ["i"] ["i"] "r" "pkg/c.json" 1 (fun _ => none) "t"
      (Except.ok ()) (Except.ok ["m1"]) exBundle
      = (Except.ok { exBundle with properties := Declcfg.dropObjectProps exBundle.properties },
         Declcfg.noEffects) :=
  prune_wins_over_inline ["i"] ["i"] "r" "pkg/c.json" "t" 1 (fun _ => none)
    (Except.ok ()) (Except.ok ["m1"]) exBundle (by decide) (by decide)

/-- C7 (code bug): the per-bundle materialization never removes the scratch
directory it creates — on every exit path (pull error, unpack error, image
read error, success, prune, untouched) the removed-directories effect is
empty, while a materialization that reaches the unpack step records the
created scratch directory; the claim (and spec section 4.3 step 5) requires
it to be removed before the operation completes. -/
theorem scratch_dir_never_removed :
    (∀ (pf : Bool) (nh req : List String) (root path : String) (steps : Nat)
      (pullErrs : Nat → Option String) (tmp : String) (unpack : Except String Unit)
      (inp : Except String (List String)) (b : Declcfg.Bundle),
      (Declcfg.processBundle pf nh req root path steps pullErrs tmp unpack inp b).2.removedDirs
        = [])
    ∧ (Declcfg.processBundle false [] [] "r" "pkg/c.json" 1 (fun _ => none) "tmp"
        (Except.ok ()) (Except.ok ["obj"]) exB7).2.createdDirs = ["tmp"] := by
  constructor
  · intro pf nh req root path steps pullErrs tmp unpack inp b
    by_cases hp : pf = true ∧ b.image ∈ nh
    · rw [processBundle_prune pf nh req root path steps pullErrs tmp unpack inp b hp]
      rfl
    · by_cases hr : req = [] ∨ b.image ∈ req
      · rw [processBundle_inline_eq pf nh req root path steps pullErrs tmp unpack inp b hp hr]
        cases (retryOnError pullRetriable pullErrs 0 steps).1 with
        | some e => rfl
        | none =>
          cases unpack with
          | error e => rfl
          | ok u =>
            cases inp with
            | error e => rfl
            | ok objs => rfl
      · rw [processBundle_untouched pf nh req root path steps pullErrs tmp unpack inp b hp hr]
        rfl
  · rfl

/-- C8 counterexample: a file named with the .yml extension is written back
as JSON, not YAML — only the literal ".yaml" extension selects YAML. -/
theorem writeback_format_counterexample :
    extGo "catalog.yml" = ".yml"
    ∧ writeBackFormat "catalog.yml" = SerFormat.json
    ∧ writeBackFormat "catalog.yml" ≠ SerFormat.yaml := by
  refine ⟨rfl, rfl, by decide⟩

/-- C8 (amended): the write-back serialization is selected by filename
extension — exactly the ".yaml" extension is written as YAML, and every other
file, including a ".yml" one, is written as JSON, to its original path. -/
theorem writeback_format_spec (path : String) :
    (extGo path = ".yaml" → writeBackFormat path = SerFormat.yaml)
    ∧ (extGo path ≠ ".yaml" → writeBackFormat path = SerFormat.json) := by
  constructor
  · intro h
    unfold writeBackFormat
    rw [if_pos h]
  · intro h
    unfold writeBackFormat
    rw [if_neg h]

/-- Witness for the amended C8 at a .yaml and a .yml path. -/
theorem writeback_format_spec_witness :
    writeBackFormat "catalog.yaml" = SerFormat.yaml
    ∧ writeBackFormat "subdir/catalog.yml" = SerFormat.json :=
  ⟨(writeback_format_spec "catalog.yaml").1 rfl,
   (writeback_format_spec "subdir/catalog.yml").2 (by decide)⟩
